import Mathlib

/-!
Shallow embedding of the semantic retrieval engine of the TaskFin backend.

Source files embedded here:
  - backend/seed_data.py   : the offline index builder (format_bill_text,
    format_transaction_text, create_faiss_index, main)
  - backend/retriever.py   : the online search service (_load_retriever_components,
    init_retriever, search, _reconstruct_text)

Modelling conventions:
  - Python float money amounts are modelled as an exact number of cents (Int);
    the Python format "%.2f" on such an amount is embedded as format2f.
    Both the builder and the retriever format an amount with the same "%.2f"
    directive applied to the same numeric value, so the abstraction preserves
    every equality and inequality of interest between the two sides.
  - Python date objects are modelled by their ISO-8601 rendering (String):
    date.strftime("%Y-%m-%d") and date.isoformat() produce that same string.
  - Embedding vectors are lists of rationals; the external embedding model is a
    parameter (enc : String -> String -> List Rat, model name then text).
  - The module-level globals _model, _index, _metadata, _model_info of
    retriever.py form the GState record; an Option field is None exactly when
    the Python global is None.  Python exceptions FileNotFoundError,
    ValueError, RuntimeError are the constructors of PyErr; an operation that
    both mutates the globals and can raise returns its new state together with
    the outcome, mirroring that assignments made before a raise persist.
  - faiss.IndexFlatL2 is an external library; its exact k-nearest-neighbour
    search and its binary persistence are modelled from the spec (sections 4.2
    and 8): squared L2 distance, ascending, ties broken by ascending row
    ordinal, write_index/read_index an exact round trip.
-/

namespace TaskFin

/-- Embedding of the Python format directive "%.2f" applied to a money amount
that is an exact number of cents. -/
def format2f (cents : Int) : String :=
  let n := cents.natAbs
  let sign := if cents < 0 then "-" else ""
  let frac := n % 100
  sign ++ toString (n / 100) ++ "." ++ (if frac < 10 then "0" else "") ++ toString frac

/-- db/models.py Bill row: id, name, amount (Float), due_date (Date, nullable),
status (String), user_id. -/
structure Bill where
  id : Nat
  user_id : Nat
  name : String
  amount : Int
  due_date : Option String
  status : String
deriving DecidableEq

/-- db/models.py Transaction row: id, amount (Float), date (Date, nullable),
description (String), user_id. -/
structure Transaction where
  id : Nat
  user_id : Nat
  description : String
  amount : Int
  date : Option String
deriving DecidableEq

/-- seed_data.format_bill_text.  Note the status normalization in the source:
status_text = "paid" if bill.status == "paid" else "unpaid". -/
def format_bill_text (b : Bill) : String :=
  let status_text := if b.status = "paid" then "paid" else "unpaid"
  let due_date_str := match b.due_date with
    | some d => d
    | none => "unknown"
  "Bill: " ++ b.name ++ ". Amount: $" ++ format2f b.amount ++
    ". Due date: " ++ due_date_str ++ ". Status: " ++ status_text ++ "."

/-- seed_data.format_transaction_text. -/
def format_transaction_text (t : Transaction) : String :=
  let date_str := match t.date with
    | some d => d
    | none => "unknown"
  "Transaction: " ++ t.description ++ ". Amount: $" ++ format2f t.amount ++
    ". Date: " ++ date_str ++ "."

/-- The metadata dictionaries built in seed_data.main and stored in
metadata.pkl, as a tagged variant on the "type" key.  unknownItem stands for a
dictionary whose "type" key is neither "bill" nor "transaction" (the defensive
else branch of _reconstruct_text). -/
inductive Metadata where
  | bill (id user_id : Nat) (name : String) (amount : Int)
      (due_date : Option String) (status : String)
  | transaction (id user_id : Nat) (description : String) (amount : Int)
      (date : Option String)
  | unknownItem
deriving DecidableEq

/-- The metadata dictionary seed_data.main appends for a bill:
due_date is bill.due_date.isoformat() if present else None, status is stored
verbatim. -/
def billMetadata (b : Bill) : Metadata :=
  .bill b.id b.user_id b.name b.amount b.due_date b.status

/-- The metadata dictionary seed_data.main appends for a transaction:
date is transaction.date.isoformat() if present else None. -/
def transactionMetadata (t : Transaction) : Metadata :=
  .transaction t.id t.user_id t.description t.amount t.date

/-- retriever._reconstruct_text.  For a bill, metadata.get("due_date") is the
stored optional string and the Python truthiness test renders None and the
empty string as "unknown".  For a transaction, metadata.get("date", "unknown")
finds the "date" key (always present in builder metadata, possibly holding
None), so the stored value is rendered; the f-string prints the value None as
the four characters "None". -/
def reconstructText : Metadata → String
  | .bill _ _ name amount due_date status =>
      let status_text := status
      let due_date_str := match due_date with
        | some d => if d = "" then "unknown" else d
        | none => "unknown"
      "Bill: " ++ name ++ ". Amount: $" ++ format2f amount ++
        ". Due date: " ++ due_date_str ++ ". Status: " ++ status_text ++ "."
  | .transaction _ _ description amount date =>
      let date_str := match date with
        | some d => d
        | none => "None"
      "Transaction: " ++ description ++ ". Amount: $" ++ format2f amount ++
        ". Date: " ++ date_str ++ "."
  | .unknownItem => "Unknown item"

/-- Squared Euclidean (L2) distance between two vectors. -/
def sqdist (u v : List Rat) : Rat :=
  (List.zipWith (fun a b => (a - b) * (a - b)) u v).sum

/-- Candidate order of the flat L2 index: ascending squared distance, ties
broken by ascending row ordinal. -/
def pairLE (a b : Rat × Int) : Prop :=
  a.1 < b.1 ∨ (a.1 = b.1 ∧ a.2 ≤ b.2)

instance : DecidableRel pairLE := fun a b => by
  unfold pairLE; infer_instance

instance : IsTotal (Rat × Int) pairLE := by
  constructor
  intro a b
  unfold pairLE
  rcases lt_trichotomy a.1 b.1 with h | h | h
  · exact Or.inl (Or.inl h)
  · rcases le_total a.2 b.2 with h2 | h2
    · exact Or.inl (Or.inr ⟨h, h2⟩)
    · exact Or.inr (Or.inr ⟨h.symm, h2⟩)
  · exact Or.inr (Or.inl h)

instance : IsTrans (Rat × Int) pairLE := by
  constructor
  intro a b c hab hbc
  unfold pairLE at *
  rcases hab with h1 | ⟨h1, h1i⟩
  · rcases hbc with h2 | ⟨h2, _⟩
    · exact Or.inl (h1.trans h2)
    · exact Or.inl (h2 ▸ h1)
  · rcases hbc with h2 | ⟨h2, h2i⟩
    · exact Or.inl (h1 ▸ h2)
    · exact Or.inr ⟨h1.trans h2, h1i.trans h2i⟩

/-- Strict version of the candidate order: strictly smaller distance, or equal
distance and strictly smaller row ordinal. -/
def pairLT (a b : Rat × Int) : Prop :=
  a.1 < b.1 ∨ (a.1 = b.1 ∧ a.2 < b.2)

/-- Modelled from the spec: faiss.IndexFlatL2 (an external library, not part
of the repository) as described in spec section 4.2 — a flat store of
fixed-dimension vectors searched exactly by squared L2 distance. -/
structure FaissIndex where
  dim : Nat
  vecs : List (List Rat)
deriving DecidableEq

/-- index.ntotal. -/
def FaissIndex.ntotal (ix : FaissIndex) : Nat := ix.vecs.length

/-- The (distance, row ordinal) candidate list for a query, one entry per
stored vector, in storage order.  Ordinals are Int because faiss returns
int64 row ids. -/
def FaissIndex.candidates (ix : FaissIndex) (q : List Rat) : List (Rat × Int) :=
  ix.vecs.enum.map (fun p => (sqdist q p.2, (p.1 : Int)))

/-- Modelled from the spec: index.search returns the k nearest rows by squared
L2 distance, ascending, ties broken by ascending row ordinal (spec 4.2). -/
def FaissIndex.fsearch (ix : FaissIndex) (q : List Rat) (k : Nat) : List (Rat × Int) :=
  (List.insertionSort pairLE (ix.candidates q)).take k

/-- Modelled from the spec: the bytes faiss.write_index persists — dimension,
vector count and the vectors themselves, flattened (spec 4.2: binary
round-trip). -/
structure IndexFileBytes where
  dim : Nat
  count : Nat
  data : List Rat
deriving DecidableEq

/-- faiss.write_index, modelled from the spec as exact binary persistence. -/
def write_index (ix : FaissIndex) : IndexFileBytes :=
  ⟨ix.dim, ix.vecs.length, ix.vecs.flatten⟩

/-- Splits a flat buffer back into count rows of dim entries each. -/
def unflattenVecs (d : Nat) : Nat → List Rat → List (List Rat)
  | 0, _ => []
  | n + 1, xs => xs.take d :: unflattenVecs d n (xs.drop d)

/-- faiss.read_index, modelled from the spec as the inverse of write_index. -/
def read_index (b : IndexFileBytes) : FaissIndex :=
  ⟨b.dim, unflattenVecs b.dim b.count b.data⟩

/-- The model_info dictionary persisted by seed_data.main. -/
structure ModelInfo where
  model_name : String
  dimension : Nat
  total_vectors : Nat
deriving DecidableEq

/-- The on-disk artifact state under backend/embeddings: directory presence and
the three artifact files.  An Option field is none exactly when the file is
absent. -/
structure Disk where
  dirExists : Bool
  model_info_file : Option ModelInfo
  index_file : Option IndexFileBytes
  metadata_file : Option (List Metadata)
deriving DecidableEq

/-- The embeddings directory path (retriever._get_embeddings_dir). -/
def embeddingsDir : String := "backend/embeddings"

/-- Path of model_info.pkl. -/
def model_info_path : String := embeddingsDir ++ "/model_info.pkl"

/-- Path of faiss_index.bin. -/
def index_path : String := embeddingsDir ++ "/faiss_index.bin"

/-- Path of metadata.pkl. -/
def metadata_path : String := embeddingsDir ++ "/metadata.pkl"

/-- Message of the FileNotFoundError raised when the embeddings directory is
absent. -/
def dirNotFoundMsg : String :=
  "Embeddings directory not found at " ++ embeddingsDir ++
  ". Please run seed_data.py first to generate embeddings."

/-- Message of the FileNotFoundError raised when one artifact file is absent;
what is the human label used in retriever.py, path the missing path. -/
def fileNotFoundMsg (what path : String) : String :=
  what ++ " not found at " ++ path ++
  ". Please run seed_data.py first to generate embeddings."

/-- Message of the ValueError raised on a metadata/index length mismatch. -/
def lengthMismatchMsg (mdLen ntotal : Nat) : String :=
  "Metadata length (" ++ toString mdLen ++ ") does not match " ++
  "index size (" ++ toString ntotal ++ ")"

/-- The Python exception classes the retriever raises, as distinct
constructors. -/
inductive PyErr where
  | fileNotFound (msg : String)
  | valueError (msg : String)
  | runtimeError (msg : String)
deriving DecidableEq

instance {ε α : Type _} [DecidableEq ε] [DecidableEq α] : DecidableEq (Except ε α) :=
  fun a b =>
    match a, b with
    | .ok x, .ok y =>
      if h : x = y then isTrue (by rw [h]) else isFalse (by intro hc; cases hc; exact h rfl)
    | .error x, .error y =>
      if h : x = y then isTrue (by rw [h]) else isFalse (by intro hc; cases hc; exact h rfl)
    | .ok _, .error _ => isFalse (by intro hc; cases hc)
    | .error _, .ok _ => isFalse (by intro hc; cases hc)

/-- The module-level globals of retriever.py: _model (a SentenceTransformer,
represented by its model name), _index, _metadata, _model_info.  Each is None
until assigned. -/
structure GState where
  model : Option String
  index : Option FaissIndex
  metadata : Option (List Metadata)
  model_info : Option ModelInfo
deriving DecidableEq

/-- The fresh interpreter state: all four globals are None. -/
def gstate0 : GState := ⟨none, none, none, none⟩

/-- retriever._load_retriever_components.  Returns the new global state
together with the raised exception, if any: assignments made to the globals
before a raise persist, exactly as in the source.  The steps, in source
order: early return when _model and _index are both set; directory existence
check; model_info.pkl load and _model_info/_model assignment; faiss_index.bin
load and _index assignment; metadata.pkl load and _metadata assignment; the
length validation. -/
def loadComponents (disk : Disk) (s : GState) : GState × Option PyErr :=
  if s.model.isSome ∧ s.index.isSome then
    (s, none)
  else if disk.dirExists = false then
    (s, some (.fileNotFound dirNotFoundMsg))
  else
    match disk.model_info_file with
    | none => (s, some (.fileNotFound (fileNotFoundMsg "Model info" model_info_path)))
    | some mi =>
      let s1 : GState := { s with model_info := some mi, model := some mi.model_name }
      match disk.index_file with
      | none => (s1, some (.fileNotFound (fileNotFoundMsg "FAISS index" index_path)))
      | some ib =>
        let ix := read_index ib
        let s2 : GState := { s1 with index := some ix }
        match disk.metadata_file with
        | none => (s2, some (.fileNotFound (fileNotFoundMsg "Metadata" metadata_path)))
        | some md =>
          let s3 : GState := { s2 with metadata := some md }
          if md.length ≠ ix.ntotal then
            (s3, some (.valueError (lengthMismatchMsg md.length ix.ntotal)))
          else
            (s3, none)

/-- retriever.init_retriever: just _load_retriever_components. -/
def init_retriever (disk : Disk) (s : GState) : GState × Option PyErr :=
  loadComponents disk s

/-- One entry of the result list built by retriever.search. -/
structure SearchResult where
  metadata : Metadata
  distance : Rat
  text : String
  rank : Nat
deriving DecidableEq

/-- The result-building loop of retriever.search: for i, (distance, idx) in
enumerate(zip(distances[0], indices[0])) — an ordinal below 0 or at or above
len(metadata) is skipped (continue), otherwise the metadata record is copied,
text reconstructed, and rank set to i + 1.  The first argument of the
recursion is the running value of i. -/
def buildResults (md : List Metadata) : Nat → List (Rat × Int) → List SearchResult
  | _, [] => []
  | i, p :: rest =>
    if p.2 < 0 ∨ (md.length : Int) ≤ p.2 then
      buildResults md (i + 1) rest
    else
      let m := md.getD p.2.toNat Metadata.unknownItem
      { metadata := m, distance := p.1, text := reconstructText m, rank := i + 1 } ::
        buildResults md (i + 1) rest

/-- retriever.search.  enc models SentenceTransformer.encode: model name, then
query text, to a vector.  Loads components first (returning the load error
when one is raised), re-checks the three globals (RuntimeError when one is
still None), embeds the query, searches the index with min(k, ntotal), and
builds the result list. -/
def searchOp (enc : String → String → List Rat) (disk : Disk) (s : GState)
    (query : String) (k : Nat) : GState × Except PyErr (List SearchResult) :=
  let (s1, err) := loadComponents disk s
  match err with
  | some e => (s1, .error e)
  | none =>
    match s1.model, s1.index, s1.metadata with
    | some mname, some ix, some md =>
      let q := enc mname query
      (s1, .ok (buildResults md 0 (ix.fsearch q (min k ix.ntotal))))
    | _, _, _ => (s1, .error (.runtimeError "Retriever components not initialized"))

/-- seed_data.create_faiss_index: IndexFlatL2(embeddings.shape[1]) then
index.add(embeddings). -/
def create_faiss_index (embeddings : List (List Rat)) : FaissIndex :=
  ⟨(embeddings.headD []).length, embeddings⟩

/-- seed_data.main, from the point where bills and transactions have been read
from the database.  When both lists are empty it returns without touching the
disk.  Otherwise it formats every bill then every transaction, embeds the
texts in one batch with the all-MiniLM-L6-v2 model, builds the flat L2 index,
creates the output directory, and writes the three artifacts. -/
def seed_main (enc : String → String → List Rat) (bills : List Bill)
    (txs : List Transaction) (disk : Disk) : Disk :=
  if bills.isEmpty ∧ txs.isEmpty then
    disk
  else
    let texts := bills.map format_bill_text ++ txs.map format_transaction_text
    let md := bills.map billMetadata ++ txs.map transactionMetadata
    let embeddings := texts.map (enc "all-MiniLM-L6-v2")
    let ix := create_faiss_index embeddings
    { dirExists := true,
      index_file := some (write_index ix),
      metadata_file := some md,
      model_info_file := some ⟨"all-MiniLM-L6-v2", ix.dim, texts.length⟩ }

/-- Follows the wording of the spec, section 4.1: Bill to text is
"Bill: {name}. Amount: ${amount:.2f}. Due date: {due_date or unknown}.
Status: {status}." with the status field rendered verbatim. -/
def spec_bill_text (b : Bill) : String :=
  let due_date_str := match b.due_date with
    | some d => d
    | none => "unknown"
  "Bill: " ++ b.name ++ ". Amount: $" ++ format2f b.amount ++
    ". Due date: " ++ due_date_str ++ ". Status: " ++ b.status ++ "."

/-! Reference-semantics model of the result-building loop, for the framing
question: _metadata is a Python list of references to dict objects, so we
model it as a list of heap addresses (mdAddrs) into a heap of Metadata
records (addresses are list positions, allocation appends).  The line
metadata = _metadata[idx].copy() allocates a fresh cell holding a copy of the
stored record, and the result carries the address of that fresh cell. -/

/-- One search result in the reference-semantics model: the address of the
copied metadata dict, the distance, and the rank. -/
structure HRes where
  mdAddr : Nat
  distance : Rat
  rank : Nat
deriving DecidableEq

/-- An in-place mutation of the dict stored at address a. -/
def heapWrite (heap : List Metadata) (a : Nat) (m : Metadata) : List Metadata :=
  heap.set a m

/-- The result-building loop of retriever.search in the reference-semantics
model.  Same control flow as buildResults; a kept candidate allocates a copy
of the stored record at a fresh address (heap.length) and the result refers to
the copy, never to the stored cell. -/
def buildResultsHeap (mdAddrs : List Nat) : List Metadata → Nat → List (Rat × Int) →
    List HRes × List Metadata
  | heap, _, [] => ([], heap)
  | heap, i, p :: rest =>
    if p.2 < 0 ∨ (mdAddrs.length : Int) ≤ p.2 then
      buildResultsHeap mdAddrs heap (i + 1) rest
    else
      let addr := mdAddrs.getD p.2.toNat 0
      let copyAddr := heap.length
      let heap1 := heap ++ [heap.getD addr Metadata.unknownItem]
      let out := buildResultsHeap mdAddrs heap1 (i + 1) rest
      (⟨copyAddr, p.1, i + 1⟩ :: out.1, out.2)

/-! Concrete fixtures used in counterexamples and witnesses. -/

/-- A bill whose status is neither "paid" nor "unpaid". -/
def bOverdue : Bill := ⟨1, 1, "Internet", 6000, some "2023-10-20", "overdue"⟩

/-- A transaction with no date. -/
def tNoDate : Transaction := ⟨1, 1, "Rent", 10000, none⟩

/-- Stored metadata of a paid bill. -/
def mdBill0 : Metadata := .bill 1 1 "Internet" 6000 (some "2023-10-20") "paid"

/-- Stored metadata of a transaction. -/
def mdTx0 : Metadata := .transaction 2 1 "Last Month Electric" 12050 (some "2023-09-15")

/-- A trivial deterministic embedding model for concrete runs. -/
def enc0 : String → String → List Rat := fun _ _ => [0]

/-- A one-vector flat index of dimension 1. -/
def ix1 : FaissIndex := ⟨1, [[0]]⟩

/-- Artifacts whose metadata holds two records while the index holds one
vector: the length validation fails at load. -/
def diskBad : Disk :=
  ⟨true, some ⟨"all-MiniLM-L6-v2", 1, 1⟩, some (write_index ix1), some [mdBill0, mdTx0]⟩

/-- A filesystem with no artifacts at all (fresh checkout, builder never
run). -/
def diskEmpty : Disk := ⟨false, none, none, none⟩

/-! Theorems. -/

/-- Claim C1: the spec requires a load-time error to abort the transition to
Loaded and to be raised again by every subsequent search or init.  The code
violates this: with artifacts holding one vector but two metadata records,
the first search raises ValueError for the length mismatch, yet _model and
_index were assigned before the validation, so the second search takes the
already-loaded early return, treats the retriever as loaded, and returns
ranked results built from the mismatched artifacts instead of raising.  This
theorem evaluates both calls at that failing input. -/
theorem load_failure_leaves_retriever_loaded :
    (searchOp enc0 diskBad gstate0 "q" 5).2 =
      .error (.valueError (lengthMismatchMsg 2 1)) ∧
    (searchOp enc0 diskBad (searchOp enc0 diskBad gstate0 "q" 5).1 "q" 5).2 =
      .ok [{ metadata := mdBill0, distance := sqdist [0] [0],
             text := reconstructText mdBill0, rank := 1 }] :=
  ⟨rfl, rfl⟩

/-- Claim C2: the reconstructed display text must be character-for-character
the text the builder embedded, an absent date rendering the literal "unknown"
on both sides.  The code violates this for a transaction with no date: the
builder renders "Date: unknown." but _reconstruct_text fetches the stored
None through metadata.get("date", "unknown") — the key is present, so the
default never applies — and renders "Date: None.". -/
theorem reconstructed_text_drifts_on_missing_date :
    format_transaction_text tNoDate =
      "Transaction: Rent. Amount: $100.00. Date: unknown." ∧
    reconstructText (transactionMetadata tNoDate) =
      "Transaction: Rent. Amount: $100.00. Date: None." ∧
    format_transaction_text tNoDate ≠ reconstructText (transactionMetadata tNoDate) := by
  refine ⟨rfl, rfl, ?_⟩
  decide

/-- Claim C3 counterexample: the builder does not render the status verbatim.
A bill whose status is "overdue" is formatted with "Status: unpaid.", not
"Status: overdue." as the claimed format string would produce. -/
theorem bill_status_not_verbatim :
    spec_bill_text bOverdue =
      "Bill: Internet. Amount: $60.00. Due date: 2023-10-20. Status: overdue." ∧
    format_bill_text bOverdue =
      "Bill: Internet. Amount: $60.00. Due date: 2023-10-20. Status: unpaid." ∧
    format_bill_text bOverdue ≠ spec_bill_text bOverdue := by
  refine ⟨rfl, rfl, ?_⟩
  decide

/-- Claim C3 (amended): format_bill_text renders the claimed format applied to
the bill with its status first normalized — "paid" when the status equals
"paid" and "unpaid" otherwise; in particular the claimed verbatim rendering
holds exactly when the status is already one of those two strings. -/
theorem format_bill_text_normalizes_status (b : Bill) :
    format_bill_text b =
      spec_bill_text { b with status := if b.status = "paid" then "paid" else "unpaid" } := rfl

/-- Claim C6 counterexample: building from an empty source writes no
artifacts, but a subsequent search does not return an empty result sequence —
with no artifacts on disk it raises FileNotFoundError for the embeddings
directory. -/
theorem empty_build_then_search_raises :
    seed_main enc0 [] [] diskEmpty = diskEmpty ∧
    (searchOp enc0 diskEmpty gstate0 "electric payment" 5).2 =
      .error (.fileNotFound dirNotFoundMsg) ∧
    (searchOp enc0 diskEmpty gstate0 "electric payment" 5).2 ≠
      .ok ([] : List SearchResult) := by
  refine ⟨rfl, rfl, ?_⟩
  decide

/-- Claim C6 (amended): building from an empty source is a no-op distinct from
a write failure — the disk is returned untouched and no error arises; a
search that then finds no embeddings directory fails with the
FileNotFoundError naming it rather than returning an empty sequence; a search
against a loaded empty index (zero vectors, zero metadata records) does
return the empty result sequence without error. -/
theorem empty_build_noop_and_search (enc : String → String → List Rat) (disk : Disk)
    (q : String) (k : Nat) (mn : String) (mi : ModelInfo) :
    seed_main enc [] [] disk = disk ∧
    (disk.dirExists = false →
      (searchOp enc disk gstate0 q k).2 = .error (.fileNotFound dirNotFoundMsg)) ∧
    (searchOp enc disk ⟨some mn, some ⟨384, []⟩, some [], some mi⟩ q k).2 =
      .ok ([] : List SearchResult) := by
  refine ⟨rfl, ?_, ?_⟩
  · intro h
    simp [searchOp, loadComponents, gstate0, h]
  · simp [searchOp, loadComponents, FaissIndex.fsearch, FaissIndex.candidates,
      List.insertionSort, buildResults]

/-- Witness for the amended claim C6 at a concrete empty disk. -/
theorem empty_build_noop_and_search_witness :
    seed_main enc0 [] [] diskEmpty = diskEmpty ∧
    (searchOp enc0 diskEmpty gstate0 "q" 5).2 = .error (.fileNotFound dirNotFoundMsg) :=
  ⟨(empty_build_noop_and_search enc0 diskEmpty "q" 5 "m" ⟨"m", 384, 0⟩).1,
   (empty_build_noop_and_search enc0 diskEmpty "q" 5 "m" ⟨"m", 384, 0⟩).2.1 rfl⟩

/-- Helper: how many results the loop keeps — one per candidate whose ordinal
is inside [0, len(metadata)). -/
theorem buildResults_length (md : List Metadata) (pairs : List (Rat × Int)) :
    ∀ i, (buildResults md i pairs).length =
      pairs.countP (fun p => decide (0 ≤ p.2 ∧ p.2 < (md.length : Int))) := by
  induction pairs with
  | nil => intro i; rfl
  | cons p rest ih =>
    intro i
    by_cases hc : p.2 < 0 ∨ (md.length : Int) ≤ p.2
    · have hnp : ¬(0 ≤ p.2 ∧ p.2 < (md.length : Int)) := by omega
      simp [buildResults, hc, List.countP_cons, hnp, ih (i + 1)]
    · have hp : 0 ≤ p.2 ∧ p.2 < (md.length : Int) := by omega
      simp [buildResults, hc, List.countP_cons, hp, ih (i + 1)]

/-- Helper: every result produced with running counter i has rank above i. -/
theorem buildResults_rank_gt (md : List Metadata) (pairs : List (Rat × Int)) :
    ∀ i, ∀ r ∈ buildResults md i pairs, i < r.rank := by
  induction pairs with
  | nil => intro i r hr; cases hr
  | cons p rest ih =>
    intro i r hr
    by_cases hc : p.2 < 0 ∨ (md.length : Int) ≤ p.2
    · rw [buildResults, if_pos hc] at hr
      exact Nat.lt_of_succ_lt (ih (i + 1) r hr)
    · rw [buildResults, if_neg hc] at hr
      rw [List.mem_cons] at hr
      rcases hr with rfl | hr
      · exact Nat.lt_succ_self i
      · exact Nat.lt_of_succ_lt (ih (i + 1) r hr)

/-- Helper: result ranks are strictly increasing along the returned list. -/
theorem buildResults_rank_mono (md : List Metadata) (pairs : List (Rat × Int)) :
    ∀ i, (buildResults md i pairs).Pairwise (fun a b => a.rank < b.rank) := by
  induction pairs with
  | nil => intro i; exact List.Pairwise.nil
  | cons p rest ih =>
    intro i
    by_cases hc : p.2 < 0 ∨ (md.length : Int) ≤ p.2
    · rw [buildResults, if_pos hc]; exact ih (i + 1)
    · rw [buildResults, if_neg hc]
      refine List.Pairwise.cons ?_ (ih (i + 1))
      intro b hb
      exact buildResults_rank_gt md rest (i + 1) b hb

/-- Helper: when no candidate ordinal is out of range, the loop keeps every
candidate and the ranks are the consecutive integers starting at i + 1. -/
theorem buildResults_ranks_of_valid (md : List Metadata) (pairs : List (Rat × Int)) :
    ∀ i, (∀ p ∈ pairs, 0 ≤ p.2 ∧ p.2 < (md.length : Int)) →
      (buildResults md i pairs).map SearchResult.rank = List.range' (i + 1) pairs.length := by
  induction pairs with
  | nil => intro i _; rfl
  | cons p rest ih =>
    intro i hv
    have hp := hv p (by simp)
    have hc : ¬(p.2 < 0 ∨ (md.length : Int) ≤ p.2) := by omega
    rw [buildResults, if_neg hc]
    simp only [List.map_cons, List.length_cons, List.range'_succ]
    exact congrArg (List.cons (i + 1)) (ih (i + 1) (fun p hp => hv p (by simp [hp])))

/-- Claim C8 (amended): candidate ordinals outside [0, len(metadata)) are
skipped rather than propagated as an error, and the rank of each result is one
plus the position of its candidate in the sequence the vector index returned
— so ranks are strictly increasing and equal 1, 2, ..., n when nothing is
skipped, but carry gaps when an out-of-range ordinal was skipped (they are
then not the 1-based positions in the returned sequence). -/
theorem search_skip_and_rank (md : List Metadata) (pairs : List (Rat × Int)) :
    (buildResults md 0 pairs).length =
      pairs.countP (fun p => decide (0 ≤ p.2 ∧ p.2 < (md.length : Int))) ∧
    (buildResults md 0 pairs).Pairwise (fun a b => a.rank < b.rank) ∧
    ((∀ p ∈ pairs, 0 ≤ p.2 ∧ p.2 < (md.length : Int)) →
      (buildResults md 0 pairs).map SearchResult.rank = List.range' 1 pairs.length) :=
  ⟨buildResults_length md pairs 0, buildResults_rank_mono md pairs 0,
   buildResults_ranks_of_valid md pairs 0⟩

/-- Witness for the amended claim C8 at a concrete in-range candidate list. -/
theorem search_skip_and_rank_witness :
    (buildResults [mdBill0] 0 [((0 : Rat), (0 : Int))]).map SearchResult.rank =
      List.range' 1 1 :=
  (search_skip_and_rank [mdBill0] [((0 : Rat), (0 : Int))]).2.2 (by decide)

/-- Claim C8 counterexample: the rank field of a result is not its 1-based position
in the returned sequence.  With one metadata record and a candidate list
whose first ordinal (5) is out of range and skipped, the single returned
result sits at position 1 but carries rank 2. -/
theorem rank_gap_after_skip :
    (buildResults [mdBill0] 0 [((0 : Rat), (5 : Int)), ((1 : Rat), (0 : Int))]).map
      SearchResult.rank = [2] ∧ (2 : Nat) ≠ 1 :=
  ⟨rfl, by decide⟩

/-- Helper: unflattening the flattened rows recovers them when every row has
the stored dimension. -/
theorem unflattenVecs_flatten (d : Nat) (vecs : List (List Rat))
    (h : ∀ v ∈ vecs, v.length = d) :
    unflattenVecs d vecs.length vecs.flatten = vecs := by
  induction vecs with
  | nil => rfl
  | cons v rest ih =>
    have hv : v.length = d := h v (by simp)
    rw [List.length_cons, List.flatten_cons, unflattenVecs,
      List.take_left' hv, List.drop_left' hv,
      ih (fun w hw => h w (by simp [hw]))]

/-- Claim C9: loading a persisted index reproduces the in-memory index
exactly, so every query returns the same ordinals, the same distances and the
same ordering as against the index before persistence.  The persistence
itself is faiss.write_index/read_index, modelled from the spec as an exact
binary round trip; the repository-side contribution is that the builder
flattens well-formed fixed-dimension rows and the retriever reads them back
with the same layout. -/
theorem persist_load_roundtrip (ix : FaissIndex)
    (h : ∀ v ∈ ix.vecs, v.length = ix.dim) :
    read_index (write_index ix) = ix ∧
    ∀ q k, (read_index (write_index ix)).fsearch q k = ix.fsearch q k := by
  have heq : read_index (write_index ix) = ix := by
    cases ix with
    | mk d vecs =>
      simp only [read_index, write_index]
      rw [unflattenVecs_flatten d vecs h]
  exact ⟨heq, fun q k => by rw [heq]⟩

/-- Witness for claim C9 at the concrete one-vector index. -/
theorem persist_load_roundtrip_witness :
    (read_index (write_index ix1)).fsearch [0] 5 = ix1.fsearch [0] 5 :=
  (persist_load_roundtrip ix1 (by decide)).2 [0] 5

/-- Claim C7: when the embeddings directory or any of the three artifact
files is absent, the first search (and init) on a fresh process fails with
FileNotFoundError — the ArtifactsNotFound kind — whose message names the
missing path, and that exception class is distinct from the ValueError and
RuntimeError classes used for every other failure. -/
theorem missing_artifacts_not_found (enc : String → String → List Rat) (disk : Disk)
    (q : String) (k : Nat) :
    (disk.dirExists = false →
      (searchOp enc disk gstate0 q k).2 = .error (.fileNotFound dirNotFoundMsg) ∧
      (init_retriever disk gstate0).2 = some (.fileNotFound dirNotFoundMsg)) ∧
    (disk.dirExists = true → disk.model_info_file = none →
      (searchOp enc disk gstate0 q k).2 =
        .error (.fileNotFound (fileNotFoundMsg "Model info" model_info_path))) ∧
    (∀ mi, disk.dirExists = true → disk.model_info_file = some mi →
      disk.index_file = none →
      (searchOp enc disk gstate0 q k).2 =
        .error (.fileNotFound (fileNotFoundMsg "FAISS index" index_path))) ∧
    (∀ mi ib, disk.dirExists = true → disk.model_info_file = some mi →
      disk.index_file = some ib → disk.metadata_file = none →
      (searchOp enc disk gstate0 q k).2 =
        .error (.fileNotFound (fileNotFoundMsg "Metadata" metadata_path))) ∧
    (∃ a b, dirNotFoundMsg = a ++ embeddingsDir ++ b) ∧
    (∀ what path, ∃ a b, fileNotFoundMsg what path = a ++ path ++ b) ∧
    (∀ m m', PyErr.fileNotFound m ≠ PyErr.valueError m' ∧
      PyErr.fileNotFound m ≠ PyErr.runtimeError m') := by
  refine ⟨?_, ?_, ?_, ?_, ?_, ?_, ?_⟩
  · intro h
    constructor
    · simp [searchOp, loadComponents, gstate0, h]
    · simp [init_retriever, loadComponents, gstate0, h]
  · intro h hmi
    simp [searchOp, loadComponents, gstate0, h, hmi]
  · intro mi h hmi hix
    simp [searchOp, loadComponents, gstate0, h, hmi, hix]
  · intro mi ib h hmi hix hmd
    simp [searchOp, loadComponents, gstate0, h, hmi, hix, hmd]
  · exact ⟨"Embeddings directory not found at ",
      ". Please run seed_data.py first to generate embeddings.", rfl⟩
  · intro what path
    exact ⟨what ++ " not found at ",
      ". Please run seed_data.py first to generate embeddings.", rfl⟩
  · intro m m'
    exact ⟨fun hc => PyErr.noConfusion hc, fun hc => PyErr.noConfusion hc⟩

/-- Witness for claim C7 at a concrete artifact-free disk. -/
theorem missing_artifacts_not_found_witness :
    (searchOp enc0 diskEmpty gstate0 "q" 5).2 = .error (.fileNotFound dirNotFoundMsg) :=
  ((missing_artifacts_not_found enc0 diskEmpty "q" 5).1 rfl).1

/-- Helper: the ordinals of the candidate list are exactly 0, ..., N-1 in
storage order. -/
theorem candidates_snd (ix : FaissIndex) (q : List Rat) :
    (ix.candidates q).map Prod.snd = (List.range ix.ntotal).map Int.ofNat := by
  unfold FaissIndex.candidates FaissIndex.ntotal
  rw [List.map_map]
  have hcomp : (Prod.snd ∘ fun p : Nat × List Rat => (sqdist q p.2, (p.1 : Int))) =
      (Int.ofNat ∘ Prod.fst) := rfl
  rw [hcomp, ← List.map_map, List.enum_map_fst]

/-- Helper: the search output is strictly sorted in the lexicographic
(distance, ordinal) order — distances never decrease, and equal distances
appear in ascending ordinal order. -/
theorem fsearch_sorted_strict (ix : FaissIndex) (q : List Rat) (k : Nat) :
    (ix.fsearch q k).Pairwise pairLT := by
  unfold FaissIndex.fsearch
  have hs : (List.insertionSort pairLE (ix.candidates q)).Pairwise pairLE :=
    List.sorted_insertionSort pairLE (ix.candidates q)
  have hperm := List.perm_insertionSort pairLE (ix.candidates q)
  have hnd0 : ((ix.candidates q).map Prod.snd).Nodup := by
    rw [candidates_snd]
    exact (List.nodup_range _).map (fun a b h => Int.ofNat_inj.mp h)
  have hnds : ((List.insertionSort pairLE (ix.candidates q)).map Prod.snd).Nodup :=
    ((hperm.map Prod.snd).nodup_iff).mpr hnd0
  have hne : (List.insertionSort pairLE (ix.candidates q)).Pairwise
      (fun a b => a.2 ≠ b.2) := List.pairwise_map.mp hnds
  have hstrict : (List.insertionSort pairLE (ix.candidates q)).Pairwise pairLT := by
    refine (hs.and hne).imp ?_
    intro a b hab
    rcases hab with ⟨hle | ⟨heq, hle⟩, hne2⟩
    · exact Or.inl hle
    · exact Or.inr ⟨heq, lt_of_le_of_ne hle hne2⟩
  exact List.Pairwise.sublist (List.take_sublist k _) hstrict

/-- Helper: the search output has min(k, ntotal) entries. -/
theorem fsearch_length (ix : FaissIndex) (q : List Rat) (k : Nat) :
    (ix.fsearch q k).length = min k ix.ntotal := by
  unfold FaissIndex.fsearch
  rw [List.length_take, (List.perm_insertionSort pairLE _).length_eq]
  unfold FaissIndex.candidates FaissIndex.ntotal
  rw [List.length_map, List.enum_length]

/-- Helper: every ordinal the index returns lies in [0, ntotal). -/
theorem fsearch_mem_valid (ix : FaissIndex) (q : List Rat) (k : Nat) :
    ∀ p ∈ ix.fsearch q k, 0 ≤ p.2 ∧ p.2 < (ix.ntotal : Int) := by
  intro p hp
  have hp1 : p ∈ List.insertionSort pairLE (ix.candidates q) :=
    List.Sublist.mem hp (List.take_sublist k _)
  have hp2 : p ∈ ix.candidates q :=
    (List.perm_insertionSort pairLE _).mem_iff.mp hp1
  have hmem : p.2 ∈ (ix.candidates q).map Prod.snd := List.mem_map_of_mem Prod.snd hp2
  rw [candidates_snd] at hmem
  rcases List.mem_map.mp hmem with ⟨j, hj, hji⟩
  have hjn := List.mem_range.mp hj
  rw [← hji]
  constructor
  · exact Int.ofNat_nonneg j
  · exact Int.ofNat_lt.mpr hjn

/-- Claim C4: with a loaded index of N vectors whose metadata store matches,
a search with k exceeding N returns exactly N results, ranked 1..N, and no
error arises.  The source clamps with min(k, index.ntotal), every clamped
candidate ordinal is in range, so the join keeps all N rows. -/
theorem search_k_clamping (enc : String → String → List Rat) (disk : Disk) (s : GState)
    (q : String) (k : Nat) (mn : String) (ix : FaissIndex) (md : List Metadata)
    (hm : s.model = some mn) (hi : s.index = some ix) (hd : s.metadata = some md)
    (hlen : md.length = ix.ntotal) (hk : ix.ntotal < k) :
    ∃ rs, (searchOp enc disk s q k).2 = .ok rs ∧ rs.length = ix.ntotal ∧
      rs.map SearchResult.rank = List.range' 1 ix.ntotal := by
  have hok : (searchOp enc disk s q k).2 =
      .ok (buildResults md 0 (ix.fsearch (enc mn q) (min k ix.ntotal))) := by
    simp [searchOp, loadComponents, hm, hi, hd]
  have hval : ∀ p ∈ ix.fsearch (enc mn q) (min k ix.ntotal),
      0 ≤ p.2 ∧ p.2 < (md.length : Int) := by
    intro p hp
    rw [hlen]
    exact fsearch_mem_valid ix (enc mn q) (min k ix.ntotal) p hp
  have hplen : (ix.fsearch (enc mn q) (min k ix.ntotal)).length = ix.ntotal := by
    rw [fsearch_length]; omega
  have hranks := buildResults_ranks_of_valid md (ix.fsearch (enc mn q) (min k ix.ntotal)) 0 hval
  refine ⟨buildResults md 0 (ix.fsearch (enc mn q) (min k ix.ntotal)), hok, ?_, ?_⟩
  · have hl := congrArg List.length hranks
    rw [List.length_map, List.length_range'] at hl
    rw [hl, hplen]
  · rw [hranks, hplen]

/-- Witness for claim C4: one indexed vector, k = 5. -/
theorem search_k_clamping_witness :
    ∃ rs, (searchOp enc0 diskEmpty ⟨some "m", some ix1, some [mdBill0], none⟩ "q" 5).2 =
        .ok rs ∧ rs.length = ix1.ntotal ∧
      rs.map SearchResult.rank = List.range' 1 ix1.ntotal :=
  search_k_clamping enc0 diskEmpty ⟨some "m", some ix1, some [mdBill0], none⟩ "q" 5
    "m" ix1 [mdBill0] rfl rfl rfl rfl (by decide)

/-- Helper: the distances of the returned results are, in order, a sublist of
the distances of the candidate sequence. -/
theorem buildResults_dist_sublist (md : List Metadata) (pairs : List (Rat × Int)) :
    ∀ i, ((buildResults md i pairs).map SearchResult.distance).Sublist
      (pairs.map Prod.fst) := by
  induction pairs with
  | nil => intro i; simp [buildResults]
  | cons p rest ih =>
    intro i
    by_cases hc : p.2 < 0 ∨ (md.length : Int) ≤ p.2
    · rw [buildResults, if_pos hc]
      exact List.Sublist.cons p.1 (ih (i + 1))
    · rw [buildResults, if_neg hc]
      simp only [List.map_cons]
      exact List.Sublist.cons₂ p.1 (ih (i + 1))

/-- Claim C5: on a loaded retriever the candidate sequence the index returns
is strictly sorted — non-decreasing squared L2 distance, equal distances in
ascending row ordinal order — and the result list search builds from it keeps
that order, so returned results are non-decreasing in distance.  (Exact
tie-breaking by ordinal inside the index is part of the spec-modelled
faiss.IndexFlatL2.) -/
theorem search_results_ordered (enc : String → String → List Rat) (disk : Disk)
    (s : GState) (q : String) (k : Nat) (mn : String) (ix : FaissIndex)
    (md : List Metadata) (hm : s.model = some mn) (hi : s.index = some ix)
    (hd : s.metadata = some md) :
    (ix.fsearch (enc mn q) (min k ix.ntotal)).Pairwise pairLT ∧
    (searchOp enc disk s q k).2 =
      .ok (buildResults md 0 (ix.fsearch (enc mn q) (min k ix.ntotal))) ∧
    (buildResults md 0 (ix.fsearch (enc mn q) (min k ix.ntotal))).Pairwise
      (fun a b => a.distance ≤ b.distance) := by
  have hsorted := fsearch_sorted_strict ix (enc mn q) (min k ix.ntotal)
  refine ⟨hsorted, by simp [searchOp, loadComponents, hm, hi, hd], ?_⟩
  have hfst : ((ix.fsearch (enc mn q) (min k ix.ntotal)).map Prod.fst).Pairwise
      (fun a b : Rat => a ≤ b) := by
    refine List.pairwise_map.mpr (hsorted.imp ?_)
    intro a b hab
    rcases hab with h | ⟨h, _⟩
    · exact le_of_lt h
    · exact le_of_eq h
  have hdist := List.Pairwise.sublist
    (buildResults_dist_sublist md (ix.fsearch (enc mn q) (min k ix.ntotal)) 0) hfst
  exact List.pairwise_map.mp hdist

/-- Witness for claim C5 at a concrete loaded state. -/
theorem search_results_ordered_witness :
    (ix1.fsearch (enc0 "m" "q") (min 5 ix1.ntotal)).Pairwise pairLT :=
  (search_results_ordered enc0 diskEmpty ⟨some "m", some ix1, some [mdBill0], none⟩
    "q" 5 "m" ix1 [mdBill0] rfl rfl rfl).1

/-- Helper: the result-building loop only appends to the heap — the final
heap is the initial heap followed by the freshly allocated copies. -/
theorem buildResultsHeap_extends (mdAddrs : List Nat) (pairs : List (Rat × Int)) :
    ∀ heap i, ∃ ext, (buildResultsHeap mdAddrs heap i pairs).2 = heap ++ ext := by
  induction pairs with
  | nil => intro heap i; exact ⟨[], (List.append_nil heap).symm⟩
  | cons p rest ih =>
    intro heap i
    by_cases hc : p.2 < 0 ∨ (mdAddrs.length : Int) ≤ p.2
    · rw [buildResultsHeap, if_pos hc]
      exact ih heap (i + 1)
    · rw [buildResultsHeap, if_neg hc]
      rcases ih (heap ++ [heap.getD (mdAddrs.getD p.2.toNat 0) Metadata.unknownItem])
        (i + 1) with ⟨ext, hext⟩
      exact ⟨[heap.getD (mdAddrs.getD p.2.toNat 0) Metadata.unknownItem] ++ ext, by
        simp only [hext, List.append_assoc]⟩

/-- Helper: every produced result refers to an address at or beyond the
initial heap end — a freshly allocated cell, never a stored one. -/
theorem buildResultsHeap_fresh (mdAddrs : List Nat) (pairs : List (Rat × Int)) :
    ∀ heap i, ∀ r ∈ (buildResultsHeap mdAddrs heap i pairs).1,
      heap.length ≤ r.mdAddr := by
  induction pairs with
  | nil => intro heap i r hr; cases hr
  | cons p rest ih =>
    intro heap i r hr
    by_cases hc : p.2 < 0 ∨ (mdAddrs.length : Int) ≤ p.2
    · rw [buildResultsHeap, if_pos hc] at hr
      exact ih heap (i + 1) r hr
    · rw [buildResultsHeap, if_neg hc] at hr
      rw [List.mem_cons] at hr
      rcases hr with rfl | hr
      · exact Nat.le_refl _
      · have := ih (heap ++ [heap.getD (mdAddrs.getD p.2.toNat 0) Metadata.unknownItem])
          (i + 1) r hr
        rw [List.length_append] at this
        omega

/-- Helper: writing at one address leaves reads at a different address
unchanged. -/
theorem getD_set_ne (l : List Metadata) (i j : Nat) (m d : Metadata) (h : i ≠ j) :
    (l.set i m).getD j d = l.getD j d := by
  simp [List.getD_eq_getD_get?, List.get?_eq_getElem?, List.getElem?_set_ne h]

/-- Claim C10: once loaded, search mutates nothing it read — every cell of
the metadata heap that existed before the search reads the same afterwards,
each returned result holds a fresh copy of its metadata record, and mutating
the copy held by a result leaves every stored record unchanged; moreover the search
operation leaves the module globals (model, index, metadata, model info) of a
loaded retriever exactly as they were. -/
theorem search_copies_metadata (mdAddrs : List Nat) (heap : List Metadata)
    (pairs : List (Rat × Int)) (hvalid : ∀ a ∈ mdAddrs, a < heap.length) :
    (∀ n, n < heap.length → ∀ d,
      (buildResultsHeap mdAddrs heap 0 pairs).2.getD n d = heap.getD n d) ∧
    (∀ r ∈ (buildResultsHeap mdAddrs heap 0 pairs).1, heap.length ≤ r.mdAddr) ∧
    (∀ r ∈ (buildResultsHeap mdAddrs heap 0 pairs).1, ∀ m : Metadata, ∀ a ∈ mdAddrs,
      ∀ d, (heapWrite (buildResultsHeap mdAddrs heap 0 pairs).2 r.mdAddr m).getD a d =
        heap.getD a d) ∧
    (∀ (enc : String → String → List Rat) (disk : Disk) (s : GState) (q : String)
      (k : Nat), s.model.isSome → s.index.isSome → (searchOp enc disk s q k).1 = s) := by
  rcases buildResultsHeap_extends mdAddrs pairs heap 0 with ⟨ext, hext⟩
  have hread : ∀ n, n < heap.length → ∀ d,
      (buildResultsHeap mdAddrs heap 0 pairs).2.getD n d = heap.getD n d := by
    intro n hn d
    rw [hext]
    exact List.getD_append heap ext d n hn
  refine ⟨hread, buildResultsHeap_fresh mdAddrs pairs heap 0, ?_, ?_⟩
  · intro r hr m a ha d
    have hfresh := buildResultsHeap_fresh mdAddrs pairs heap 0 r hr
    have hlt := hvalid a ha
    rw [heapWrite, getD_set_ne _ _ _ _ _ (by omega)]
    exact hread a hlt d
  · intro enc disk s q k hm hi
    rcases hmod : s.model with _ | mn
    · simp [hmod] at hm
    rcases hix : s.index with _ | ix
    · simp [hix] at hi
    rcases hmd : s.metadata with _ | md
    · simp [searchOp, loadComponents, hmod, hix, hmd]
    · simp [searchOp, loadComponents, hmod, hix, hmd]

/-- Witness for claim C10: a one-record store; mutating the returned copy at
address 1 leaves the stored record at address 0 unchanged. -/
theorem search_copies_metadata_witness :
    (heapWrite (buildResultsHeap [0] [mdBill0] 0 [((0 : Rat), (0 : Int))]).2 1
      Metadata.unknownItem).getD 0 Metadata.unknownItem =
      ([mdBill0] : List Metadata).getD 0 Metadata.unknownItem :=
  (search_copies_metadata [0] [mdBill0] [((0 : Rat), (0 : Int))] (by decide)).2.2.1
    ⟨1, 0, 1⟩ (List.mem_singleton.mpr rfl) Metadata.unknownItem 0 (by decide)
    Metadata.unknownItem

end TaskFin
